import Mathlib

/-!
Verification of the suspicious-event service core (`crud.py`, `app.py`,
`models.py`) against its natural-language specification.

The embedding models the four tables of `models.py` as lists inside a
`Store` record, and the CRUD layer of `crud.py` as functions on `Store`.
IP addresses (PostgreSQL `INET` host values) are a family tag plus the
numeric value of the address; CIDR rows (PostgreSQL `CIDR`) are a family
tag, the network's numeric value and the mask length.  Database errors
that the code depends on (primary-key unique violations, the
zero-rows-affected check of `delete_ip_range`) are modelled with
`Option`/`Except` results.
-/

/-- An `INET` host address: IPv4 or IPv6, with its numeric value
(`0 ≤ value < 2^32` resp. `2^128` for well-formed addresses). -/
inductive IPAddr where
  | v4 (a : Nat) : IPAddr
  | v6 (a : Nat) : IPAddr
deriving DecidableEq, Repr

/-- A `CIDR` value as PostgreSQL stores it: address family, numeric network
address (host bits zero for canonical values) and mask length. -/
structure Cidr where
  isV6 : Bool
  network : Nat
  masklen : Nat
deriving DecidableEq, Repr

def ipIsV6 : IPAddr → Bool
  | IPAddr.v4 _ => false
  | IPAddr.v6 _ => true

def ipVal : IPAddr → Nat
  | IPAddr.v4 a => a
  | IPAddr.v6 a => a

/-- Bit width of the address family: 32 for IPv4, 128 for IPv6. -/
def ipWidth (ip : IPAddr) : Nat := if ipIsV6 ip then 128 else 32

/-- A processed event row of the `events` table (`models.py`). -/
structure EventRow where
  id : Nat
  timestamp : Int
  username : String
  source_ip : IPAddr
  event_type : String
  file_size_mb : Option Rat
  application : String
  success : Bool
  is_suspicious : Bool
deriving DecidableEq, Repr

/-- An incoming event as the boundary hands it to `crud.process_event`:
already validated, `source_ip` a parsed address. -/
structure EventIn where
  timestamp : Int
  username : String
  source_ip : IPAddr
  event_type : String
  file_size_mb : Option Rat
  application : String
  success : Bool
deriving DecidableEq, Repr

/-- The persistent store: the four tables of `models.py`. -/
structure Store where
  ranges : List Cidr
  flaggedUsers : List String
  flaggedIPs : List IPAddr
  events : List EventRow
deriving DecidableEq, Repr

/-- Numeric value of a dotted-quad IPv4 address. -/
def ipv4 (a b c d : Nat) : Nat := ((a * 256 + b) * 256 + c) * 256 + d

/-- The PostgreSQL `<<` operator applied as `is_ip_suspicious` does
(`crud.py` line 66): `host_inet << cidr`.  `<<` is the *strict*
subnet-containment test: it holds iff the address families match, the mask
length of the left operand (the full address width, since the left operand
is a host address) is strictly greater than the right operand's mask
length, and the network parts agree under the right operand's mask. -/
def inetContainedStrict (ip : IPAddr) (c : Cidr) : Bool :=
  (ipIsV6 ip == c.isV6) && decide (c.masklen < ipWidth ip)
    && decide (ipVal ip / 2 ^ (ipWidth ip - c.masklen)
               = c.network / 2 ^ (ipWidth ip - c.masklen))

/-- Follows the spec's words for `Contains(ip)` (§4.1): true iff the IP's
numeric value, masked by the range's mask length, equals the range's
network address, and the address families match. -/
def contains_spec (ip : IPAddr) (c : Cidr) : Bool :=
  (ipIsV6 ip == c.isV6)
    && decide (ipVal ip / 2 ^ (ipWidth ip - c.masklen) * 2 ^ (ipWidth ip - c.masklen)
               = c.network)

/-- `crud.is_ip_suspicious`: does the address fall in any stored range,
via the `<<` operator (an `EXISTS` query over `suspicious_ip_ranges`). -/
def is_ip_suspicious (st : Store) (ip : IPAddr) : Bool :=
  st.ranges.any (fun c => inetContainedStrict ip c)

/-- `crud.is_user_flagged`: `EXISTS` over `flagged_users`. -/
def is_user_flagged (st : Store) (user : String) : Bool :=
  decide (user ∈ st.flaggedUsers)

/-- `crud.is_ip_flagged`: `EXISTS` over `flagged_ips`. -/
def is_ip_flagged (st : Store) (ip : IPAddr) : Bool :=
  decide (ip ∈ st.flaggedIPs)

/-- `crud.flag_user`: a plain `INSERT` into `flagged_users`, whose primary
key is the username.  Inserting a username that is already present raises
`UniqueViolationError`; `none` models that error. -/
def flag_user (st : Store) (user : String) : Option Store :=
  if user ∈ st.flaggedUsers then none
  else some { st with flaggedUsers := st.flaggedUsers ++ [user] }

/-- `crud.flag_ip`: a plain `INSERT` into `flagged_ips` (primary key the
address); `none` models the unique violation on a duplicate. -/
def flag_ip (st : Store) (ip : IPAddr) : Option Store :=
  if ip ∈ st.flaggedIPs then none
  else some { st with flaggedIPs := st.flaggedIPs ++ [ip] }

/-- The row `events.insert()` builds in `crud.process_event`: all event
fields plus the computed flag; `id` is assigned by autoincrement, modelled
as the current row count. -/
def mkEventRow (idv : Nat) (e : EventIn) (susp : Bool) : EventRow :=
  { id := idv, timestamp := e.timestamp, username := e.username
  , source_ip := e.source_ip, event_type := e.event_type
  , file_size_mb := e.file_size_mb, application := e.application
  , success := e.success, is_suspicious := susp }

/-- The event `INSERT` of `crud.process_event` (lines 132-142). -/
def insert_event (st : Store) (e : EventIn) (susp : Bool) : Store :=
  { st with events := st.events ++ [mkEventRow st.events.length e susp] }

/-- `crud.process_event` (lines 104-143): read the three predicates
against the current store, conditionally flag the user and the IP, insert
the event row with the computed value, return that value.  The `Option`
propagates a `UniqueViolationError` from the two flag inserts (the guards
make them succeed in this sequential model, as `process_event_spec`
proves). -/
def process_event (st : Store) (e : EventIn) : Option (Store × Bool) :=
  let user := e.username
  let ip := e.source_ip
  let user_is_flagged := is_user_flagged st user
  let ip_is_flagged := is_ip_flagged st ip
  let ip_is_susp := is_ip_suspicious st ip
  let is_susp := ip_is_susp || user_is_flagged || ip_is_flagged
  match (if is_susp && !user_is_flagged then flag_user st user else some st) with
  | none => none
  | some st1 =>
    match (if is_susp && !ip_is_flagged then flag_ip st1 ip else some st1) with
    | none => none
    | some st2 => some (insert_event st2 e is_susp, is_susp)

/-- Split a character list at every occurrence of `sep` (the behaviour of
Python's `str.split` with an explicit separator). -/
def splitOnChar (sep : Char) : List Char → List (List Char)
  | [] => [[]]
  | c :: cs =>
    let r := splitOnChar sep cs
    if c = sep then [] :: r
    else
      match r with
      | [] => [[c]]
      | h :: t => (c :: h) :: t

/-- One dotted-quad octet as CPython's `ipaddress` parses it: only ASCII
decimal digits, at most three of them, no leading zero, value at most
255. -/
def parse_octet (cs : List Char) : Option Nat :=
  if cs = [] then none
  else if ¬ cs.all Char.isDigit then none
  else if cs.length > 3 then none
  else if cs.length > 1 ∧ cs.head? = some (Char.ofNat 48) then none
  else
    let n := cs.foldl (fun n c => n * 10 + (c.toNat - 48)) 0
    if n ≤ 255 then some n else none

/-- A dotted-quad IPv4 address: exactly four octets joined by dots. -/
def parse_ipv4 (cs : List Char) : Option Nat :=
  match (splitOnChar (Char.ofNat 46) cs).mapM parse_octet with
  | some [a, b, c, d] => some (ipv4 a b c d)
  | _ => none

/-- A decimal mask length for IPv4: nonempty, decimal digits only
(CPython accepts leading zeros here), value at most 32. -/
def parse_masklen (cs : List Char) : Option Nat :=
  if cs = [] then none
  else if ¬ cs.all Char.isDigit then none
  else
    let n := cs.foldl (fun n c => n * 10 + (c.toNat - 48)) 0
    if n ≤ 32 then some n else none

/-- A netmask value: `some p` when `n` is the 32-bit mask of `p` leading
one-bits, that is `2^32 - 2^(32-p)` (CPython's contiguity check in
netmask parsing). -/
def maskBits (n : Nat) : Option Nat :=
  (List.range 33).find? (fun p => decide (n = 2 ^ 32 - 2 ^ (32 - p)))

/-- The text after `/` as CPython reads it: first as a decimal mask
length; failing that, as a dotted-quad netmask (contiguous leading
one-bits); failing that, as a dotted-quad hostmask, whose complement must
be such a netmask.  The dotted quad follows the same octet rules as an
address.  A decimal that exceeds 32 falls through to the dotted-quad
readings, which reject it, as CPython's fallback does. -/
def parse_suffix (cs : List Char) : Option Nat :=
  match parse_masklen cs with
  | some k => some k
  | none =>
    match parse_ipv4 cs with
    | none => none
    | some n =>
      match maskBits n with
      | some p => some p
      | none => maskBits (2 ^ 32 - 1 - n)

/-- CPython's `ipaddress.ip_network(text)` with its default `strict=True`,
modelled exactly on colon-free text.  No IPv6 textual form is colon-free
(the IPv6 reader demands at least two colons), so on this domain
`ip_network` is precisely its IPv4 path: a dotted-quad address, optionally
followed by one `/` and a suffix read as a decimal mask length, a
dotted-quad netmask, or a dotted-quad hostmask, each normalized to a mask
length.  An absent suffix defaults to the full 32; set host bits below
the mask are a `ValueError` (`none`), not collapsed.  Text containing a
colon (an IPv6 form) is outside this embedding. -/
def ip_network_v4 (s : String) : Option Cidr :=
  match splitOnChar (Char.ofNat 47) s.toList with
  | [addr] =>
    (parse_ipv4 addr).map (fun n => { isV6 := false, network := n, masklen := 32 })
  | [addr, m] =>
    match parse_ipv4 addr, parse_suffix m with
    | some n, some k =>
      if n % 2 ^ (32 - k) = 0 then some { isV6 := false, network := n, masklen := k }
      else none
    | _, _ => none
  | _ => none

/-- The PostgreSQL `CIDR` text cast used by `crud.delete_ip_range` and by
the `cidr` column on insert: the canonical dotted-quad forms with an
optional decimal mask length.  On this strict dotted-quad fragment the
cast accepts exactly these inputs and yields this normalized value
(PostgreSQL additionally accepts abbreviated forms such as `10.0/16`,
which are outside the embedding and never produced by the validated
boundary). -/
def pg_cidr_cast (s : String) : Option Cidr :=
  match splitOnChar (Char.ofNat 47) s.toList with
  | [addr] =>
    (parse_ipv4 addr).map (fun n => { isV6 := false, network := n, masklen := 32 })
  | [addr, m] =>
    match parse_ipv4 addr, parse_masklen m with
    | some n, some k =>
      if n % 2 ^ (32 - k) = 0 then some { isV6 := false, network := n, masklen := k }
      else none
    | _, _ => none
  | _ => none

/-- `crud.add_ip_range`: a plain `INSERT` into `suspicious_ip_ranges`
(primary key the CIDR value); `none` models `UniqueViolationError`. -/
def add_ip_range (st : Store) (c : Cidr) : Option Store :=
  if c ∈ st.ranges then none
  else some { st with ranges := st.ranges ++ [c] }

inductive AddRangeResult where
  | ok : AddRangeResult
  | formatError : AddRangeResult
  | duplicateError : AddRangeResult
deriving DecidableEq, Repr

/-- The `POST /ip-ranges` route (`app.py` lines 77-91): validate the text
with `ipaddress.ip_network` (a `ValueError` becomes the 422 format
response), then insert; the database's unique violation becomes the 422
duplicate response.  The pair carries the route's outcome and the store
it leaves behind. -/
def add_ip_range_endpoint (st : Store) (s : String) : AddRangeResult × Store :=
  match ip_network_v4 s with
  | none => (AddRangeResult.formatError, st)
  | some c =>
    match add_ip_range st c with
    | none => (AddRangeResult.duplicateError, st)
    | some st1 => (AddRangeResult.ok, st1)

/-- `crud.get_ip_ranges`: all stored CIDR values. -/
def get_ip_ranges (st : Store) : List Cidr := st.ranges

inductive DeleteError where
  | castError : DeleteError
  | notFound : DeleteError
deriving DecidableEq, Repr

/-- `crud.delete_ip_range` (lines 33-49): `DELETE WHERE cidr = CAST(text
AS CIDR)`, then `ValueError` (`notFound`) when zero rows were affected.
A text the cast rejects is a database error before any row is touched
(`castError`).  On an error the store is unchanged (the `DELETE` that
affected zero rows removed nothing). -/
def delete_ip_range (st : Store) (s : String) : Except DeleteError Store :=
  match pg_cidr_cast s with
  | none => Except.error DeleteError.castError
  | some c =>
    let remaining := st.ranges.filter (fun r => !(decide (r = c)))
    if remaining.length = st.ranges.length then Except.error DeleteError.notFound
    else Except.ok { st with ranges := remaining }

/-- The `ORDER BY timestamp DESC` relation: a row precedes another when
its timestamp is at least as large. -/
def tsDesc (a b : EventRow) : Prop := b.timestamp ≤ a.timestamp

instance : DecidableRel tsDesc := fun a b => Int.decLe b.timestamp a.timestamp

instance : IsTotal EventRow tsDesc := ⟨fun a b => Int.le_total b.timestamp a.timestamp⟩

instance : IsTrans EventRow tsDesc := ⟨fun _ _ _ h1 h2 => le_trans h2 h1⟩

/-- The `WHERE` clauses of `crud.get_suspicious_events` (lines 163-169):
`is_suspicious = TRUE`, then `timestamp >= start_date` and
`timestamp <= end_date` when those are provided. -/
def filterSuspicious (st : Store) (start_date end_date : Option Int) : List EventRow :=
  let q := st.events.filter (fun r => r.is_suspicious)
  let q := match start_date with
           | some s => q.filter (fun r => decide (s ≤ r.timestamp))
           | none => q
  match end_date with
  | some t => q.filter (fun r => decide (r.timestamp ≤ t))
  | none => q

/-- `crud.get_suspicious_events` (lines 146-173): filter, `ORDER BY
timestamp DESC`, then `LIMIT limit OFFSET offset` (SQL skips `offset`
rows, then returns at most `limit`). -/
def get_suspicious_events (st : Store) (start_date end_date : Option Int)
    (limit offset : Nat) : List EventRow :=
  (((filterSuspicious st start_date end_date).insertionSort tsDesc).drop offset).take limit

/-- The committed store an `Except`-valued run leaves behind: on an error
the state already committed when the failing statement ran. -/
def committedStore : Except Store (Store × Bool) → Store
  | Except.error st => st
  | Except.ok (st, _) => st

/-- `crud.process_event` under storage faults.  Each `await
database.execute`/`fetch_val` is a separate autocommitted statement (there
is no transaction in `crud.py`); the call sites are numbered 0-5 in source
order and `failAt` names the one whose statement fails.  A failing
statement raises (`Except.error`), carrying the store as committed by the
statements that already ran; a read commits nothing, a write commits its
own row immediately. -/
def process_event_faulty (failAt : Nat) (st : Store) (e : EventIn) :
    Except Store (Store × Bool) :=
  if failAt = 0 then Except.error st else
  let user_is_flagged := is_user_flagged st e.username
  if failAt = 1 then Except.error st else
  let ip_is_flagged := is_ip_flagged st e.source_ip
  if failAt = 2 then Except.error st else
  let ip_is_susp := is_ip_suspicious st e.source_ip
  let is_susp := ip_is_susp || user_is_flagged || ip_is_flagged
  let doUser := is_susp && !user_is_flagged
  if doUser = true ∧ failAt = 3 then Except.error st else
  let st1 := if doUser then (flag_user st e.username).getD st else st
  let doIp := is_susp && !ip_is_flagged
  if doIp = true ∧ failAt = 4 then Except.error st1 else
  let st2 := if doIp then (flag_ip st1 e.source_ip).getD st1 else st1
  if failAt = 5 then Except.error st2 else
  Except.ok (insert_event st2 e is_susp, is_susp)

/-- One invocation of a core operation, for stating store invariants. -/
inductive Op where
  | addRange (s : String) : Op
  | deleteRange (s : String) : Op
  | procEvent (e : EventIn) : Op
  | flagUserOp (u : String) : Op
  | flagIPOp (ip : IPAddr) : Op
  | listRanges : Op
  | queryEvents (start_date end_date : Option Int) (limit offset : Nat) : Op
  | queryUserFlagged (u : String) : Op
  | queryIPFlagged (ip : IPAddr) : Op
  | queryIPSuspicious (ip : IPAddr) : Op

/-- The store each operation leaves behind; an operation that errors
(duplicate insert, not-found delete, and so on) leaves the store as the
statements that did run left it. -/
def runOp (st : Store) : Op → Store
  | Op.addRange s => (add_ip_range_endpoint st s).2
  | Op.deleteRange s =>
    match delete_ip_range st s with
    | Except.ok st1 => st1
    | Except.error _ => st
  | Op.procEvent e =>
    match process_event st e with
    | some (st1, _) => st1
    | none => st
  | Op.flagUserOp u => (flag_user st u).getD st
  | Op.flagIPOp ip => (flag_ip st ip).getD st
  | Op.listRanges => st
  | Op.queryEvents _ _ _ _ => st
  | Op.queryUserFlagged _ => st
  | Op.queryIPFlagged _ => st
  | Op.queryIPSuspicious _ => st

/-- The single `some` result `process_event` always yields in the sequential
model: the guards on the two flag inserts discharge their uniqueness
checks, so neither raises. -/
theorem process_event_spec (st : Store) (e : EventIn) :
    process_event st e =
      some
        ( { ranges := st.ranges
          , flaggedUsers :=
              if (is_ip_suspicious st e.source_ip || is_user_flagged st e.username
                    || is_ip_flagged st e.source_ip) && !is_user_flagged st e.username then
                st.flaggedUsers ++ [e.username]
              else st.flaggedUsers
          , flaggedIPs :=
              if (is_ip_suspicious st e.source_ip || is_user_flagged st e.username
                    || is_ip_flagged st e.source_ip) && !is_ip_flagged st e.source_ip then
                st.flaggedIPs ++ [e.source_ip]
              else st.flaggedIPs
          , events :=
              st.events ++ [mkEventRow st.events.length e
                (is_ip_suspicious st e.source_ip || is_user_flagged st e.username
                  || is_ip_flagged st e.source_ip)] }
        , is_ip_suspicious st e.source_ip || is_user_flagged st e.username
            || is_ip_flagged st e.source_ip ) := by
  by_cases hu : e.username ∈ st.flaggedUsers <;>
    by_cases hip : e.source_ip ∈ st.flaggedIPs <;>
      cases hr : is_ip_suspicious st e.source_ip <;>
        simp [process_event, is_user_flagged, is_ip_flagged, flag_user, flag_ip,
          insert_event, hu, hip, hr]

/-- C1: For every event processed by `process_event`, the returned value
equals the disjunction of the three predicates evaluated against the store
state at the start of the call (user flagged OR source IP flagged OR
source IP contained in a stored range); when that disjunction is true and
the user was not already flagged the user is flagged, when it is true and
the IP was not already flagged the IP is flagged, and in every case
exactly one event row is appended carrying the computed `is_suspicious`
value, which is also the return value. -/
theorem process_event_correct (st : Store) (e : EventIn) (st1 : Store) (b : Bool)
    (h : process_event st e = some (st1, b)) :
    b = (is_user_flagged st e.username || is_ip_flagged st e.source_ip
          || is_ip_suspicious st e.source_ip)
    ∧ (b = true → is_user_flagged st e.username = false →
        st1.flaggedUsers = st.flaggedUsers ++ [e.username])
    ∧ (b = true → is_ip_flagged st e.source_ip = false →
        st1.flaggedIPs = st.flaggedIPs ++ [e.source_ip])
    ∧ (b = true → is_user_flagged st1 e.username = true ∧ is_ip_flagged st1 e.source_ip = true)
    ∧ (b = false → st1.flaggedUsers = st.flaggedUsers ∧ st1.flaggedIPs = st.flaggedIPs)
    ∧ st1.events = st.events ++ [mkEventRow st.events.length e b] := by
  rw [process_event_spec] at h
  simp only [Option.some.injEq, Prod.mk.injEq] at h
  obtain ⟨h1, h2⟩ := h
  subst h1
  subst h2
  cases hr : is_ip_suspicious st e.source_ip <;>
    cases hu : is_user_flagged st e.username <;>
      cases hip : is_ip_flagged st e.source_ip <;>
        simp_all [is_user_flagged, is_ip_flagged, List.mem_append]

/-- The running example: the spec's `173.99.253.0/24`-style scenario with
the range `10.0.0.0/24` stored and an event from `alice` at `10.0.0.7`. -/
def exCidr24 : Cidr := { isV6 := false, network := ipv4 10 0 0 0, masklen := 24 }

def exIp : IPAddr := IPAddr.v4 (ipv4 10 0 0 7)

def exEvent : EventIn :=
  { timestamp := 100, username := "alice", source_ip := exIp
  , event_type := "login", file_size_mb := none, application := "email", success := true }

def exStore : Store :=
  { ranges := [exCidr24], flaggedUsers := [], flaggedIPs := [], events := [] }

def exStoreAfter : Store :=
  { ranges := [exCidr24], flaggedUsers := ["alice"], flaggedIPs := [exIp]
  , events := [mkEventRow 0 exEvent true] }

/-- Witness for `process_event_correct`: the event from `alice` at
`10.0.0.7` against the store holding `10.0.0.0/24` is classified
suspicious, both flags are created, and the row is appended. -/
theorem process_event_correct_witness :
    is_user_flagged exStoreAfter exEvent.username = true
    ∧ is_ip_flagged exStoreAfter exEvent.source_ip = true
    ∧ exStoreAfter.events = exStore.events ++ [mkEventRow exStore.events.length exEvent true] := by
  have h := process_event_correct exStore exEvent exStoreAfter true (by decide)
  exact ⟨(h.2.2.2.1 rfl).1, (h.2.2.2.1 rfl).2, h.2.2.2.2.2⟩

def exCidr32 : Cidr := { isV6 := false, network := ipv4 10 0 0 5, masklen := 32 }

/-- C2: `is_ip_suspicious` is claimed to return true iff some stored range
of the same family contains the address under masked equality, so that an
IP equal to a stored single-address range (a `/32`) is contained.  The
code's `<<` operator is the strict containment test: with `10.0.0.5/32`
stored, the address `10.0.0.5` satisfies the spec's masked-equality
predicate (`contains_spec`) yet `is_ip_suspicious` returns false.  The
network and last address of a shorter stored range (`10.0.0.0/24`) are
contained, as the claim states. -/
theorem is_ip_suspicious_full_length_miss :
    is_ip_suspicious
      { ranges := [exCidr32], flaggedUsers := [], flaggedIPs := [], events := [] }
      (IPAddr.v4 (ipv4 10 0 0 5)) = false
    ∧ contains_spec (IPAddr.v4 (ipv4 10 0 0 5)) exCidr32 = true
    ∧ is_ip_suspicious
      { ranges := [exCidr24], flaggedUsers := [], flaggedIPs := [], events := [] }
      (IPAddr.v4 (ipv4 10 0 0 0)) = true
    ∧ is_ip_suspicious
      { ranges := [exCidr24], flaggedUsers := [], flaggedIPs := [], events := [] }
      (IPAddr.v4 (ipv4 10 0 0 255)) = true := by decide

/-- C3: `process_event` issues its statements as separate autocommitted
executes (no transaction).  When the final event `INSERT` (call site 5)
fails on the suspicious event from `alice` at `10.0.0.7`, the two flag
rows written by the earlier statements stay committed while no event row
exists, the torn outcome the claim rules out. -/
theorem process_event_nonatomic :
    process_event_faulty 5 exStore exEvent
      = Except.error
          { ranges := [exCidr24], flaggedUsers := ["alice"], flaggedIPs := [exIp]
          , events := [] }
    ∧ (committedStore (process_event_faulty 5 exStore exEvent)).flaggedUsers = ["alice"]
    ∧ (committedStore (process_event_faulty 5 exStore exEvent)).events = [] :=
  ⟨rfl, rfl, rfl⟩

/-- C4: `flag_user` and `flag_ip` are plain inserts into tables whose
primary key is the flagged value: flagging `alice` once succeeds, but
flagging her again — and flagging an already-flagged IP — raises a unique
violation (`none`), contradicting the claimed idempotence. -/
theorem flag_duplicate_errors :
    flag_user { ranges := [], flaggedUsers := [], flaggedIPs := [], events := [] } "alice"
      = some { ranges := [], flaggedUsers := ["alice"], flaggedIPs := [], events := [] }
    ∧ flag_user { ranges := [], flaggedUsers := ["alice"], flaggedIPs := [], events := [] } "alice"
      = none
    ∧ flag_ip { ranges := [], flaggedUsers := [], flaggedIPs := [exIp], events := [] } exIp
      = none := by decide

/-- Each single core operation preserves membership in the two flag
tables: no operation deletes or updates a flag row. -/
theorem runOp_mono (st : Store) (op : Op) :
    (∀ u, u ∈ st.flaggedUsers → u ∈ (runOp st op).flaggedUsers)
    ∧ (∀ ip, ip ∈ st.flaggedIPs → ip ∈ (runOp st op).flaggedIPs) := by
  cases op with
  | addRange s =>
    simp only [runOp, add_ip_range_endpoint]
    cases ip_network_v4 s with
    | none => simp
    | some c =>
      simp only [add_ip_range]
      by_cases hc : c ∈ st.ranges <;> simp [hc]
  | deleteRange s =>
    simp only [runOp, delete_ip_range]
    cases pg_cidr_cast s with
    | none => simp
    | some c =>
      by_cases h :
          (st.ranges.filter (fun r => !(decide (r = c)))).length = st.ranges.length <;>
        simp [h]
  | procEvent e =>
    simp only [runOp, process_event_spec]
    constructor <;> intro x hx <;> split <;>
      simp [List.mem_append, hx]
  | flagUserOp u =>
    simp only [runOp, flag_user]
    by_cases h : u ∈ st.flaggedUsers <;> simp [h, List.mem_append]
    intro x hx
    exact Or.inl hx
  | flagIPOp ip =>
    simp only [runOp, flag_ip]
    by_cases h : ip ∈ st.flaggedIPs <;> simp [h, List.mem_append]
    intro x hx
    exact Or.inl hx
  | listRanges => simp [runOp]
  | queryEvents a b c d => simp [runOp]
  | queryUserFlagged u => simp [runOp]
  | queryIPFlagged ip => simp [runOp]
  | queryIPSuspicious ip => simp [runOp]

/-- C5: Flags are monotonic: once `is_user_flagged` (resp. `is_ip_flagged`)
returns true for a value, it still returns true after every subsequent
sequence of core operations (range add/delete, event processing, flag
inserts, queries) — no operation removes or updates a row of the
flagged-users or flagged-IPs tables. -/
theorem flags_monotonic (st : Store) (ops : List Op) (u : String) (ip : IPAddr) :
    (is_user_flagged st u = true → is_user_flagged (ops.foldl runOp st) u = true)
    ∧ (is_ip_flagged st ip = true → is_ip_flagged (ops.foldl runOp st) ip = true) := by
  induction ops generalizing st with
  | nil => exact ⟨fun h => h, fun h => h⟩
  | cons op rest ih =>
    simp only [List.foldl_cons]
    refine ⟨fun h => ?_, fun h => ?_⟩
    · refine (ih (runOp st op)).1 ?_
      simp only [is_user_flagged, decide_eq_true_eq] at h ⊢
      exact (runOp_mono st op).1 u h
    · refine (ih (runOp st op)).2 ?_
      simp only [is_ip_flagged, decide_eq_true_eq] at h ⊢
      exact (runOp_mono st op).2 ip h

def emptyStore : Store := { ranges := [], flaggedUsers := [], flaggedIPs := [], events := [] }

/-- C6 counterexample: the claim says `AddRange` normalizes the CIDR text
by collapsing host bits before storing, so `10.0.0.5/24` would be stored
as `10.0.0.0/24`.  The code validates with `ipaddress.ip_network` in
strict mode, which rejects set host bits: the endpoint answers
FormatError, nothing is persisted, and `ListRanges` stays empty. -/
theorem add_ip_range_hostbits_rejected :
    ip_network_v4 "10.0.0.5/24" = none
    ∧ add_ip_range_endpoint emptyStore "10.0.0.5/24" = (AddRangeResult.formatError, emptyStore)
    ∧ get_ip_ranges (add_ip_range_endpoint emptyStore "10.0.0.5/24").2 = [] := by decide

/-- C6 (amended): For every IPv4 CIDR input text — colon-free text, the
domain on which `ip_network_v4` coincides with `ipaddress.ip_network`;
IPv6 forms are outside this embedding — `AddRange` validates strictly
rather than collapsing host bits: malformed text, and text whose host
bits are set below the mask, is rejected with FormatError and nothing is
persisted; when the parsed CIDR is already present it returns
DuplicateError with the store unchanged; otherwise it succeeds, after
which `ListRanges` includes the stored normalized value (normalization
being the parse itself: a missing mask length defaults to the full 32, a
netmask or hostmask suffix becomes the equivalent mask length, and the
value is stored in canonical form). -/
theorem add_ip_range_endpoint_correct (st : Store) (s : String)
    (hs : Char.ofNat 58 ∉ s.toList) :
    (ip_network_v4 s = none →
        add_ip_range_endpoint st s = (AddRangeResult.formatError, st))
    ∧ (∀ c, ip_network_v4 s = some c → c ∈ st.ranges →
        add_ip_range_endpoint st s = (AddRangeResult.duplicateError, st))
    ∧ (∀ c, ip_network_v4 s = some c → c ∉ st.ranges →
        add_ip_range_endpoint st s = (AddRangeResult.ok, { st with ranges := st.ranges ++ [c] })
          ∧ c ∈ get_ip_ranges (add_ip_range_endpoint st s).2) := by
  clear hs
  refine ⟨fun h => ?_, fun c hc hmem => ?_, fun c hc hmem => ?_⟩
  · simp [add_ip_range_endpoint, h]
  · simp [add_ip_range_endpoint, hc, add_ip_range, hmem]
  · simp [add_ip_range_endpoint, hc, add_ip_range, hmem, get_ip_ranges]

/-- Witness for `add_ip_range_endpoint_correct`: adding `10.0.0.0/24` to
the empty store succeeds and the range is listed; the netmask form
`10.0.0.0/255.255.255.0` is accepted and stored normalized to the same
`10.0.0.0/24` value; the leading-zero octet in `10.00.0.0/24` is a
FormatError leaving the store unchanged. -/
theorem add_ip_range_endpoint_correct_witness :
    add_ip_range_endpoint emptyStore "10.0.0.0/24"
        = (AddRangeResult.ok, { emptyStore with ranges := emptyStore.ranges ++ [exCidr24] })
    ∧ add_ip_range_endpoint emptyStore "10.0.0.0/255.255.255.0"
        = (AddRangeResult.ok, { emptyStore with ranges := emptyStore.ranges ++ [exCidr24] })
    ∧ add_ip_range_endpoint emptyStore "10.00.0.0/24" = (AddRangeResult.formatError, emptyStore) := by
  have h1 := add_ip_range_endpoint_correct emptyStore "10.0.0.0/24" (by decide)
  have h2 := add_ip_range_endpoint_correct emptyStore "10.0.0.0/255.255.255.0" (by decide)
  have h3 := add_ip_range_endpoint_correct emptyStore "10.00.0.0/24" (by decide)
  exact ⟨(h1.2.2 exCidr24 (by decide) (by decide)).1,
    (h2.2.2 exCidr24 (by decide) (by decide)).1, h3.1 (by decide)⟩

/-- Rows surviving the `WHERE` clauses of `get_suspicious_events` are
suspicious and inside the requested time window. -/
theorem mem_filterSuspicious (st : Store) (sd ed : Option Int) (r : EventRow)
    (h : r ∈ filterSuspicious st sd ed) :
    r.is_suspicious = true
    ∧ (∀ s, sd = some s → s ≤ r.timestamp)
    ∧ (∀ t, ed = some t → r.timestamp ≤ t) := by
  unfold filterSuspicious at h
  cases sd <;> cases ed <;> simp [List.mem_filter] at h <;> simp_all

/-- C7: For every stored event set and every `startTime`/`endTime`/
`limit`/`offset` with `1 ≤ limit ≤ 10000` and `offset ≥ 0`, the query
returns exactly the events with `is_suspicious = true` that satisfy
`timestamp ≥ startTime` and `timestamp ≤ endTime` when those bounds are
provided, ordered by timestamp descending (the result is a prefix window
of a descending-sorted permutation of the filtered rows), with the first
`offset` results skipped and at most `limit` results returned. -/
theorem get_suspicious_events_correct (st : Store) (sd ed : Option Int) (limit offset : Nat)
    (h1 : 1 ≤ limit) (h2 : limit ≤ 10000) :
    get_suspicious_events st sd ed limit offset
      = (((filterSuspicious st sd ed).insertionSort tsDesc).drop offset).take limit
    ∧ List.Perm ((filterSuspicious st sd ed).insertionSort tsDesc) (filterSuspicious st sd ed)
    ∧ ((filterSuspicious st sd ed).insertionSort tsDesc).Sorted tsDesc
    ∧ (get_suspicious_events st sd ed limit offset).Sorted tsDesc
    ∧ (get_suspicious_events st sd ed limit offset).length ≤ limit
    ∧ ∀ r ∈ get_suspicious_events st sd ed limit offset,
        r.is_suspicious = true
        ∧ (∀ s, sd = some s → s ≤ r.timestamp)
        ∧ (∀ t, ed = some t → r.timestamp ≤ t) := by
  refine ⟨rfl, List.perm_insertionSort _ _, List.sorted_insertionSort _ _, ?_, ?_, ?_⟩
  · exact List.Pairwise.sublist
      ((List.take_sublist _ _).trans (List.drop_sublist _ _))
      (List.sorted_insertionSort _ _)
  · exact List.length_take_le _ _
  · intro r hr
    have h3 : r ∈ (filterSuspicious st sd ed).insertionSort tsDesc :=
      ((List.take_sublist _ _).trans (List.drop_sublist _ _)).subset hr
    exact mem_filterSuspicious st sd ed r ((List.mem_insertionSort _).mp h3)

def testRow (i : Nat) (t : Int) : EventRow :=
  { id := i, timestamp := t, username := "u", source_ip := exIp, event_type := "login"
  , file_size_mb := none, application := "email", success := true, is_suspicious := true }

def fiveStore : Store :=
  { ranges := [], flaggedUsers := [], flaggedIPs := []
  , events := [testRow 0 10, testRow 1 30, testRow 2 20, testRow 3 50, testRow 4 40] }

/-- Witness for `get_suspicious_events_correct`: with `limit = 2`,
`offset = 0` over five suspicious events it returns the two most recent
by timestamp, descending. -/
theorem get_suspicious_events_correct_witness :
    get_suspicious_events fiveStore none none 2 0 = [testRow 3 50, testRow 4 40] := by
  have h := get_suspicious_events_correct fiveStore none none 2 0 (by decide) (by decide)
  rw [h.1]
  decide

/-- C9: The classification outcome of `process_event` depends only on the
event's username and source IP together with the current store: two
events agreeing on those two fields, processed against the same store,
yield the same `is_suspicious` return and the same flag-store state, no
matter how their timestamp, event type, file size, application or success
flag differ. -/
theorem classification_independent (st : Store) (e1 e2 : EventIn)
    (hu : e1.username = e2.username) (hip : e1.source_ip = e2.source_ip) :
    Option.map (fun p => p.2) (process_event st e1)
      = Option.map (fun p => p.2) (process_event st e2)
    ∧ Option.map (fun p => (p.1.flaggedUsers, p.1.flaggedIPs)) (process_event st e1)
      = Option.map (fun p => (p.1.flaggedUsers, p.1.flaggedIPs)) (process_event st e2) := by
  rw [process_event_spec, process_event_spec, hu, hip]
  exact ⟨rfl, rfl⟩

def exEvent2 : EventIn :=
  { timestamp := 999, username := "alice", source_ip := exIp, event_type := "file_upload"
  , file_size_mb := some 5, application := "file_manager", success := false }

/-- Witness for `classification_independent`: two events from `alice` at
`10.0.0.7` differing in timestamp, type, file size, application and
success classify identically and leave identical flag tables. -/
theorem classification_independent_witness :
    Option.map (fun p => p.2) (process_event exStore exEvent)
      = Option.map (fun p => p.2) (process_event exStore exEvent2)
    ∧ Option.map (fun p => (p.1.flaggedUsers, p.1.flaggedIPs)) (process_event exStore exEvent)
      = Option.map (fun p => (p.1.flaggedUsers, p.1.flaggedIPs)) (process_event exStore exEvent2) :=
  classification_independent exStore exEvent exEvent2 rfl rfl

/-- C10: `process_event` never modifies the range store: the stored
ranges after it completes — and after any faulty run, whichever statement
failed — equal the ranges before the call; its only writes are inserts,
the prior flagged-users, flagged-IPs and events rows surviving in place. -/
theorem process_event_range_frame (st : Store) (e : EventIn) (failAt : Nat) :
    Option.map (fun p => p.1.ranges) (process_event st e) = some st.ranges
    ∧ (committedStore (process_event_faulty failAt st e)).ranges = st.ranges
    ∧ ∀ st1 b, process_event st e = some (st1, b) →
        List.Sublist st.flaggedUsers st1.flaggedUsers
        ∧ List.Sublist st.flaggedIPs st1.flaggedIPs
        ∧ List.Sublist st.events st1.events := by
  refine ⟨by rw [process_event_spec]; rfl, ?_, ?_⟩
  · cases hr : is_ip_suspicious st e.source_ip <;>
      by_cases hu : e.username ∈ st.flaggedUsers <;>
        by_cases hip : e.source_ip ∈ st.flaggedIPs <;>
          (simp [process_event_faulty, is_user_flagged, is_ip_flagged, flag_user, flag_ip,
            insert_event, hu, hip, hr, committedStore]
           try (split_ifs <;> simp [committedStore, flag_user, flag_ip, insert_event, hu, hip]))
  · intro st1 b h
    rw [process_event_spec] at h
    simp only [Option.some.injEq, Prod.mk.injEq] at h
    obtain ⟨h1, h2⟩ := h
    subst h1
    refine ⟨?_, ?_, ?_⟩ <;> simp only [] <;> first
      | (split <;> first | exact List.sublist_append_left _ _ | exact List.Sublist.refl _)
      | exact List.sublist_append_left _ _
